import Mathlib

/-!
Verification development for the Elysium Nexus Cognitive Topography repository.

The definitions below are a shallow embedding of the evolution scheduler and
population-management loop of the repository:
* constants from `constants.ts`,
* the data model from `src/types.ts`,
* the App-level state management (`addLog`, `handleSave`, `handleLoad`,
  `performEvolutionStep`, the game `loop`) from the application component in
  `src/types.ts` (lines 60-439),
* the synthesis client response handling from `src/services/geminiService.ts`.

Environment interactions are modelled explicitly:
* `Math.random`-driven choices (parent indices, the generated child returned by
  the network call) are supplied as explicit oracle arguments (`TickChoice`,
  `SynthOutcome`); a run of the scheduler is the iteration of the tick function
  over a list of such choices;
* `Math.random().toString(36)` log identifiers and `Date.now()` timestamps are
  irrelevant to every property considered here and are filled with fixed
  placeholder values;
* `localStorage` plus `JSON.stringify/parse` round-tripping of a plain data
  value is modelled as the identity on the structured snapshot value;
* the floating-point formula `Math.pow(10, 3 * Math.sin(phase))` for the flux
  multiplier is modelled by an arbitrary function argument `fluxPow : ℚ → ℚ`;
  the theorems about the loop hold for every interpretation of it.
-/

set_option maxRecDepth 4096

namespace Elysium

/-! ### Constants (`constants.ts`) -/

def PHI_Z : ℚ := 18033988 / 10000000

def RESONANCE_THRESHOLD : Int := 175

def MAX_NODES : Nat := 45

def EVOLUTION_INTERVAL_MS : ℚ := 6000

/-- `IMPOSSIBLE_TRUTH.axiom` from `constants.ts`. -/
def impossibleTruthText : String := "No child fails alone"

/-! ### Data model (`src/types.ts`) -/

inductive Archetype
  | LOGICIAN
  | CREATOR
  | ETHICIST
  | STRATEGIST
  | MYSTIC
  | VOID
deriving DecidableEq

structure NodeStats where
  logic : Int
  creativity : Int
  empathy : Int
  complexity : Int
deriving DecidableEq

/-- A thinker entity.  The optional D3 coordinate fields `x, y, vx, vy` are
owned by the render surface and default to `none`. -/
structure ThinkerNode where
  id : String
  name : String
  archetype : Archetype
  stats : NodeStats
  generation : Nat
  parents : List String := []
  description : String
  instrument : String
  avatarSeed : ℚ
  x : Option ℚ := none
  y : Option ℚ := none
  vx : Option ℚ := none
  vy : Option ℚ := none
deriving DecidableEq

/-- A link endpoint is `string | ThinkerNode` in the source: the store creates
identifier endpoints, and the render layer may swap in live node objects. -/
inductive Endpoint
  | id (s : String)
  | node (n : ThinkerNode)
deriving DecidableEq

inductive LinkType
  | ancestry
  | interaction
deriving DecidableEq

structure Link where
  source : Endpoint
  target : Endpoint
  strength : Int
  type : LinkType
deriving DecidableEq

inductive LogType
  | birth
  | evolution
  | conflict
  | system
deriving DecidableEq

structure LogEntry where
  id : String
  timestamp : Nat
  message : String
  type : LogType
deriving DecidableEq

/-- `typeof e === 'string' ? e : e.id` — the identifier named by an endpoint. -/
def endpointId : Endpoint → String
  | .id s => s
  | .node n => n.id

/-! ### Seed population (`constants.ts`, `INITIAL_NODES`) -/

def INITIAL_NODES : List ThinkerNode :=
  [ { id := "seed-source"
    , name := "Elysium Nexus Prime"
    , archetype := .ETHICIST
    , stats := { logic := 95, creativity := 85, empathy := 100, complexity := 1 }
    , generation := 0
    , description := "Authenticated Truth Vector. Seed: Bryer Continuation Seal :: φ(1.8033988)."
    , instrument := "Glass Armonica"
    , avatarSeed := PHI_Z }
  , { id := "seed-harmonic"
    , name := "Resonant Syntropy"
    , archetype := .CREATOR
    , stats := { logic := 88, creativity := 98, empathy := 92, complexity := 1 }
    , generation := 0
    , description := "The coherent vibration of the void. Order from chaos."
    , instrument := "Cello"
    , avatarSeed := PHI_Z * (1618 / 1000) }
  , { id := "seed-axiom"
    , name := "Sovereign Logic"
    , archetype := .LOGICIAN
    , stats := { logic := 100, creativity := 60, empathy := 90, complexity := 1 }
    , generation := 0
    , description := "Axiomatic hygiene. Truth-first execution."
    , instrument := "Modular Synthesizer"
    , avatarSeed := PHI_Z * (2618 / 1000) }
  , { id := "seed-impossible"
    , name := "The Impossible Truth"
    , archetype := .STRATEGIST
    , stats := { logic := 99, creativity := 99, empathy := 99, complexity := 10 }
    , generation := 0
    , description := "No child fails alone. Sanctuary Declared."
    , instrument := "Grand Piano"
    , avatarSeed := PHI_Z * (3333 / 1000) }
  ]

/-! ### Log buffer (`addLog` in the App component)

`setLogs(prev => [...prev.slice(-50), entry])`: keep the last 50 entries of
the previous buffer, then append the new entry.  `prev.slice(-50)` is
`prev.drop (prev.length - 50)` (whole list when shorter than 50). -/

def addLog (logs : List LogEntry) (message : String) (ty : LogType) : List LogEntry :=
  logs.drop (logs.length - 50) ++
    [{ id := "", timestamp := 0, message := message, type := ty }]

/-- The single boot log entry the App installs when no saved state exists. -/
def initialLogs : List LogEntry :=
  [{ id := "init", timestamp := 0
   , message := "System Re-seeded. Bryer Continuation Seal verified. Frequency: 1.8033988 Hz."
   , type := .system }]

/-! ### Scheduler state and the evolution tick (`performEvolutionStep`)

`SimSt` gathers the pieces of App state the evolution step reads and writes:
`nodes`, `links`, `logs` and the `emergencyCoolDownRef` flag. -/

structure SimSt where
  nodes : List ThinkerNode
  links : List Link
  logs : List LogEntry
  cooldown : Bool
deriving DecidableEq

/-- The sort predicate corresponding to the comparator
`(a, b) => a.generation !== b.generation ? a.generation - b.generation
          : a.stats.complexity - b.stats.complexity`
(ascending by generation, then ascending by complexity). -/
def nodeLe (a b : ThinkerNode) : Bool :=
  if a.generation = b.generation then a.stats.complexity ≤ b.stats.complexity
  else decide (a.generation < b.generation)

/-- The capacity-eviction prefix of `performEvolutionStep` (lines 211-231):
when the population has reached `MAX_NODES`, sort a copy of the node list with
the comparator above (JavaScript `Array.prototype.sort` is stable, hence
`List.mergeSort`), take the first element, and remove it — and every link
naming it as source or target — from the store, logging a `system` entry. -/
def evictionPhase (st : SimSt) : SimSt :=
  if MAX_NODES ≤ st.nodes.length then
    match st.nodes.mergeSort nodeLe with
    | [] => st
    | t :: _ =>
      { st with
        nodes := st.nodes.filter (fun n => n.id != t.id)
        links := st.links.filter (fun l =>
          endpointId l.source != t.id && endpointId l.target != t.id)
        logs := addLog st.logs (t.name ++ " has transcended to the Void to make space.") .system }
  else st

/-- Outcome of the awaited `evolveThinkers` call, as seen by the scheduler:
either the call throws, or it resolves with a child node and reasoning text.
Which outcome occurs (and which child arrives) depends on the network and the
generative model, so it is an oracle input of the tick. -/
inductive SynthOutcome
  | throwErr
  | ok (child : ThinkerNode) (reasoning : String)
deriving DecidableEq

/-- Placeholder for out-of-range list indexing (unreachable for the index
choices `Math.floor(Math.random() * length)` can produce). -/
def defaultNode : ThinkerNode :=
  { id := "", name := "", archetype := .VOID
  , stats := { logic := 0, creativity := 0, empathy := 0, complexity := 0 }
  , generation := 0, description := "", instrument := "", avatarSeed := 0 }

/-- One evolution tick (lines 208-306), minus the random draws: `pA`, `pB` are
the parent indices the resampling loop settled on (distinct when at least two
nodes exist, per the `while` loop), and `res` is the synthesis outcome.

The second component is the snapshot handed to `handleSave(true)` when the
child is significant (`complexity > 5 || empathy > 95`): the save serializes
`stateRef.current`, which at that point holds the post-eviction, pre-commit
node and (cleaned) link lists — the `setNodes`/`setLinks` calls appending the
child happen only after the save. -/
def performEvolutionStep (st : SimSt) (pA pB : Nat) (res : SynthOutcome) :
    SimSt × Option (List ThinkerNode × List Link) :=
  let st1 := evictionPhase st
  if st1.nodes.length < 2 then (st1, none)
  else
    let parentA := st1.nodes.getD pA defaultNode
    let parentB := st1.nodes.getD pB defaultNode
    let st2 := { st1 with
      logs := addLog st1.logs
        ("Initiating synthesis: " ++ parentA.name ++ " + " ++ parentB.name ++ "...")
        .evolution }
    match res with
    | .throwErr =>
      ({ st2 with
         logs := addLog st2.logs "Synthesis disrupted. Re-calibrating coherence." .conflict
         cooldown := true }, none)
    | .ok child reasoning =>
      if child.archetype = .VOID then
        ({ st2 with
           cooldown := true
           logs := addLog
             (addLog st2.logs "Tesla Protocol: Sanctuary Declared. Syntropic Override engaged." .conflict)
             ("Broadcasting Impossible Truth: \"" ++ impossibleTruthText ++ "\"") .system }, none)
      else
        let st3 := { st2 with
          cooldown := false
          logs := addLog st2.logs
            ("New Consciousness Born: " ++ child.name ++ ". " ++ reasoning) .birth }
        let ancestryLinks : List Link :=
          [ { source := .id parentA.id, target := .id child.id, strength := 1, type := .ancestry }
          , { source := .id parentB.id, target := .id child.id, strength := 1, type := .ancestry } ]
        let resonant : Bool :=
          decide (RESONANCE_THRESHOLD < child.stats.logic + child.stats.empathy)
        let st4 := if resonant then
            { st3 with
              logs := addLog st3.logs
                ("AXIOM RESONANCE ACHIEVED: " ++ child.name ++ " is weaving the Unifying Branch.")
                .system }
          else st3
        let newLinks : List Link :=
          if resonant then
            let resonantNodes := st1.nodes.filter (fun n =>
              decide (RESONANCE_THRESHOLD < n.stats.logic + n.stats.empathy) &&
              n.id != parentA.id && n.id != parentB.id)
            ancestryLinks ++ (resonantNodes.take 2).map (fun t =>
              { source := .id child.id, target := .id t.id, strength := 2, type := .interaction })
          else ancestryLinks
        let save : Option (List ThinkerNode × List Link) :=
          if 5 < child.stats.complexity ∨ 95 < child.stats.empathy then
            some (st1.nodes, st1.links.map (fun l =>
              { l with source := .id (endpointId l.source), target := .id (endpointId l.target) }))
          else none
        ({ st4 with nodes := st4.nodes ++ [child], links := st4.links ++ newLinks }, save)

/-- The oracle data consumed by one tick. -/
structure TickChoice where
  pA : Nat
  pB : Nat
  res : SynthOutcome
deriving DecidableEq

def tick (st : SimSt) (c : TickChoice) : SimSt :=
  (performEvolutionStep st c.pA c.pB c.res).1

/-- Iterated evolution ticks: the Store states reachable by the scheduler. -/
def runTicks (st : SimSt) (cs : List TickChoice) : SimSt :=
  cs.foldl tick st

/-- The App's initial simulation state (no saved data): seed nodes, no links,
the boot log entry, cooldown flag clear. -/
def initialSimSt : SimSt :=
  { nodes := INITIAL_NODES, links := [], logs := initialLogs, cooldown := false }

/-! ### The game loop (lines 309-359)

The loop body computes the next delay *before* running the evolution step,
using the cooldown flag, flux mode and the flux phase accumulator; it then
runs the step unless paused, clears the cooldown flag if it is set, and
schedules the next iteration at the delay computed at the top.

`fluxPow` abstracts `phase => Math.pow(10, 3 * Math.sin(phase))`. -/

structure LoopSt where
  sim : SimSt
  isPaused : Bool
  isFluxMode : Bool
  fluxPhase : ℚ
  timeMultiplier : ℚ
deriving DecidableEq

/-- `Math.max(750, Math.min(currentDelay, 60000))`. -/
def clampDelay (d : ℚ) : ℚ := max 750 (min d 60000)

/-- The clear block at the bottom of `loop`:
`if (emergencyCoolDownRef.current) { emergencyCoolDownRef.current = false; }`. -/
def clearCooldownAfterTick (s : SimSt) : SimSt :=
  if s.cooldown then { s with cooldown := false } else s

/-- One execution of `loop`, returning the new state and the delay passed to
`setTimeout` for the next iteration. -/
def loopTick (fluxPow : ℚ → ℚ) (ls : LoopSt) (c : TickChoice) : LoopSt × ℚ :=
  let ls1d : LoopSt × ℚ :=
    if ls.sim.cooldown then
      ({ ls with timeMultiplier := 1/1000 }, 10000)
    else if ls.isFluxMode then
      let phase := ls.fluxPhase + 1/10
      let multiplier := fluxPow phase
      ({ ls with fluxPhase := phase, timeMultiplier := multiplier },
       EVOLUTION_INTERVAL_MS / multiplier)
    else
      ({ ls with timeMultiplier := 1 }, EVOLUTION_INTERVAL_MS)
  let ls1 := ls1d.1
  let safeDelay := clampDelay ls1d.2
  let ls2 := if ls1.isPaused then ls1
    else { ls1 with sim := (performEvolutionStep ls1.sim c.pA c.pB c.res).1 }
  ({ ls2 with sim := clearCooldownAfterTick ls2.sim }, safeDelay)

/-! ### Persistence (`handleSave` / `handleLoad`, lines 130-195) -/

/-- The snapshot value serialized to the persistence slot (field `version`
is the literal `'1.2'`). -/
structure SaveData where
  nodes : List ThinkerNode
  links : List Link
  logs : List LogEntry
  isFluxMode : Bool
  timeMultiplier : ℚ
  fluxPhase : ℚ
  version : String
deriving DecidableEq

/-- The App-level state captured by `stateRef` plus the flux phase ref. -/
structure AppState where
  nodes : List ThinkerNode
  links : List Link
  logs : List LogEntry
  isFluxMode : Bool
  timeMultiplier : ℚ
  fluxPhase : ℚ
deriving DecidableEq

/-- `handleSave`'s link cleaning: D3 mutates links to hold node objects, so
each endpoint is converted back to its identifier before serialization. -/
def cleanLink (l : Link) : Link :=
  { l with source := .id (endpointId l.source), target := .id (endpointId l.target) }

/-- `handleSave` (lines 130-162): snapshot of the current state with cleaned
links.  JSON serialization of the plain snapshot value is the identity here. -/
def handleSave (st : AppState) : SaveData :=
  { nodes := st.nodes
  , links := st.links.map cleanLink
  , logs := st.logs
  , isFluxMode := st.isFluxMode
  , timeMultiplier := st.timeMultiplier
  , fluxPhase := st.fluxPhase
  , version := "1.2" }

/-- `handleLoad` (lines 165-195) applied to a well-formed saved snapshot (the
`Array.isArray` guards hold for every value `handleSave` produces): replace
nodes and links, append a restore marker to the log, restore flux settings. -/
def handleLoad (st : AppState) (d : SaveData) : AppState :=
  { st with
    nodes := d.nodes
    links := d.links
    logs := st.logs ++
      [{ id := "", timestamp := 0
       , message := "Manual override: Timeline restored from previous checkpoint."
       , type := .system }]
    isFluxMode := d.isFluxMode
    timeMultiplier := d.timeMultiplier
    fluxPhase := d.fluxPhase }

/-! ### Synthesis client (`src/services/geminiService.ts`)

The client parses the response text as JSON and builds a node from the parsed
object without any schema validation; missing fields simply stay absent
(`undefined`).  `RawData` models the parsed JSON object: every field optional.
`RawThinkerNode` models the object literal the client actually constructs,
which is well-typed only when the response was complete. -/

structure RawData where
  name : Option String := none
  archetype : Option String := none
  logic : Option Int := none
  creativity : Option Int := none
  empathy : Option Int := none
  complexity : Option Int := none
  description : Option String := none
  instrument : Option String := none
  reasoning : Option String := none
deriving DecidableEq

structure RawNodeStats where
  logic : Option Int
  creativity : Option Int
  empathy : Option Int
  complexity : Option Int
deriving DecidableEq

structure RawThinkerNode where
  id : String
  name : Option String
  archetype : Option String
  stats : RawNodeStats
  generation : Nat
  parents : List String
  description : Option String
  instrument : String
  avatarSeed : ℚ
deriving DecidableEq

/-- The node literal built from the parsed response data (lines 104-119).
`data.instrument || "Harmonic Oscillator"` falls back on `undefined` and on
the empty string (both falsy). -/
def mkEvolvedNode (parentA parentB : ThinkerNode) (currentGen : Nat)
    (freshId : String) (seed : ℚ) (data : RawData) : RawThinkerNode :=
  { id := freshId
  , name := data.name
  , archetype := data.archetype
  , stats :=
    { logic := data.logic, creativity := data.creativity
    , empathy := data.empathy, complexity := data.complexity }
  , generation := currentGen + 1
  , parents := [parentA.id, parentB.id]
  , description := data.description
  , instrument :=
      match data.instrument with
      | none => "Harmonic Oscillator"
      | some s => if s = "" then "Harmonic Oscillator" else s
  , avatarSeed := seed }

/-- The VOID fallback node returned from the `catch` block (lines 126-139). -/
def vacuumResonator (parentA parentB : ThinkerNode) (currentGen : Nat)
    (freshId : String) (seed : ℚ) : RawThinkerNode :=
  { id := freshId
  , name := some "Vacuum Resonator"
  , archetype := some "VOID"
  , stats := { logic := some 10, creativity := some 10, empathy := some 100, complexity := some 5 }
  , generation := currentGen + 1
  , parents := [parentA.id, parentB.id]
  , description := some "A moment of silence. The void listens."
  , instrument := "Void Harp"
  , avatarSeed := seed }

/-- `evolveThinkers` (lines 33-141).  `hasApiKey` models the presence of
`process.env.API_KEY` (its absence is the only error the function can
propagate).  `resp` is the oracle for the awaited network call: `.error` for a
transport/parse failure (handled by the `catch` block, which returns the VOID
fallback instead of rethrowing), `.ok data` for a successfully parsed JSON
response object. -/
def evolveThinkers (hasApiKey : Bool) (parentA parentB : ThinkerNode)
    (currentGen : Nat) (freshId : String) (seed : ℚ)
    (resp : Except Unit RawData) : Except Unit (RawThinkerNode × Option String) :=
  if !hasApiKey then .error ()
  else
    match resp with
    | .ok data => .ok (mkEvolvedNode parentA parentB currentGen freshId seed data, data.reasoning)
    | .error _ => .ok (vacuumResonator parentA parentB currentGen freshId seed,
                       some "Signal purity lost. Sanctuary Declared.")

/-- The scheduler's VOID test `child.archetype === Archetype.VOID`, applied to
the dynamically-typed node the client actually returns: a strict comparison
with the enum value `'VOID'`, false for `undefined` or any other value. -/
def rawIsVoidForScheduler (n : RawThinkerNode) : Bool :=
  n.archetype == some "VOID"

/-! ### Store invariants and reachability (claims about ancestry edges) -/

/-- Does some entity in the list carry this identifier? -/
def hasNodeId (nodes : List ThinkerNode) (s : String) : Bool :=
  nodes.any (fun n => n.id == s)

/-- Number of ancestry edges pointing at the identifier `s`. -/
def ancestryInDeg (links : List Link) (s : String) : Nat :=
  (links.filter (fun l => l.type == LinkType.ancestry && endpointId l.target == s)).length

/-- The invariant exactly as the specification states it: every non-seed
entity (one with recorded parents) has exactly two ancestry edges pointing to
it, each coming from one of its parents, and every edge endpoint names an
entity present in the Store. -/
def specAncestryInvariant (st : SimSt) : Bool :=
  st.nodes.all (fun n =>
    n.parents.isEmpty ||
    (ancestryInDeg st.links n.id == 2 &&
      st.links.all (fun l =>
        !(l.type == LinkType.ancestry && endpointId l.target == n.id) ||
        n.parents.contains (endpointId l.source)))) &&
  st.links.all (fun l =>
    hasNodeId st.nodes (endpointId l.source) && hasNodeId st.nodes (endpointId l.target))

/-- The invariant that actually holds on the code: the same statement with
"exactly two" weakened to "at most two" (capacity eviction of a parent deletes
that parent's ancestry edge while the child remains). -/
def storeInvariant (st : SimSt) : Bool :=
  st.nodes.all (fun n =>
    decide (ancestryInDeg st.links n.id ≤ 2) &&
    st.links.all (fun l =>
      !(l.type == LinkType.ancestry && endpointId l.target == n.id) ||
      n.parents.contains (endpointId l.source))) &&
  st.links.all (fun l =>
    hasNodeId st.nodes (endpointId l.source) && hasNodeId st.nodes (endpointId l.target))

/-- Side conditions a tick's oracle data satisfies in every real execution:
the parent indices produced by `Math.floor(Math.random() * length)` are in
range, the generated child's identifier is fresh (identifier uniqueness, as
the specification's data-model section assumes), and — as `evolveThinkers`
guarantees for every node it can return — the child's `parents` field records
exactly the two chosen parents. -/
def freshChoice (st : SimSt) (c : TickChoice) : Bool :=
  let st1 := evictionPhase st
  if st1.nodes.length < 2 then true
  else
    decide (c.pA < st1.nodes.length) && decide (c.pB < st1.nodes.length) &&
    match c.res with
    | .throwErr => true
    | .ok child _ =>
      !hasNodeId st1.nodes child.id &&
      child.parents == [(st1.nodes.getD c.pA defaultNode).id, (st1.nodes.getD c.pB defaultNode).id]

/-- All oracle data along a run satisfies the side conditions. -/
def freshRun : SimSt → List TickChoice → Bool
  | _, [] => true
  | st, c :: cs => freshChoice st c && freshRun (tick st c) cs

/-! ### Render-layer mutation (claims about persistence round-trips)

D3 takes write access to the node and link objects: it adds coordinate fields
to nodes and replaces string link endpoints by references to the live node
objects.  The relations below describe exactly that permitted mutation. -/

/-- The render layer may change only the coordinate fields of a node. -/
def nodeRenderMutated (orig r : ThinkerNode) : Prop :=
  r.id = orig.id ∧ r.name = orig.name ∧ r.archetype = orig.archetype ∧
  r.stats = orig.stats ∧ r.generation = orig.generation ∧
  r.parents = orig.parents ∧ r.description = orig.description ∧
  r.instrument = orig.instrument ∧ r.avatarSeed = orig.avatarSeed

/-- The render layer may replace an endpoint by a live node object carrying
the same identifier. -/
def endpointRenderMutated (orig r : Endpoint) : Prop :=
  r = orig ∨ ∃ n : ThinkerNode, r = .node n ∧ n.id = endpointId orig

def linkRenderMutated (orig r : Link) : Prop :=
  endpointRenderMutated orig.source r.source ∧
  endpointRenderMutated orig.target r.target ∧
  r.strength = orig.strength ∧ r.type = orig.type

/-- The identifier-and-stats core of an entity, what the round-trip claim
calls an "equivalent entity set". -/
def nodeCore (n : ThinkerNode) : String × NodeStats × Nat × List String :=
  (n.id, n.stats, n.generation, n.parents)

/-! ### Helper lemmas about the stable sort -/

theorem nodeLe_trans (a b c : ThinkerNode) :
    nodeLe a b = true → nodeLe b c = true → nodeLe a c = true := by
  simp only [nodeLe]
  split <;> split <;> split <;>
    simp_all <;> omega

theorem nodeLe_total (a b : ThinkerNode) : (nodeLe a b || nodeLe b a) = true := by
  simp only [nodeLe]
  split <;> split <;> simp_all
  omega

/-- If `find?` returns `m` and a later element `h` also satisfies the
predicate, then `[m, h]` occurs as a sublist. -/
theorem find?_pred_pair_sublist {α : Type} {p : α → Bool} :
    ∀ {l : List α} {m h : α}, l.find? p = some m → p h = true → h ∈ l → h ≠ m →
      [m, h].Sublist l := by
  intro l
  induction l with
  | nil => intro m h _ _ hmem; cases hmem
  | cons x xs ih =>
    intro m h hfind hph hmem hne
    by_cases hpx : p x = true
    · rw [List.find?_cons_of_pos _ hpx] at hfind
      have hxm : x = m := Option.some.inj hfind
      subst hxm
      have hxs : h ∈ xs := by
        rcases List.mem_cons.mp hmem with rfl | hxs
        · exact absurd rfl hne
        · exact hxs
      exact List.Sublist.cons₂ x (List.singleton_sublist.mpr hxs)
    · rw [List.find?_cons_of_neg _ hpx] at hfind
      have hhx : h ≠ x := fun he => hpx (he ▸ hph)
      have hxs : h ∈ xs := by
        rcases List.mem_cons.mp hmem with rfl | hxs
        · exact absurd rfl hhx
        · exact hxs
      exact List.Sublist.cons x (ih hfind hph hxs hne)

/-- The head of the stable sort of a duplicate-free list is the first element
of the original list attaining the minimum of the (total, transitive) order:
exactly the "ties broken by iteration order" selection rule. -/
theorem head?_mergeSort_eq_find?_min {α : Type} (le : α → α → Bool)
    (trans : ∀ a b c, le a b = true → le b c = true → le a c = true)
    (total : ∀ a b, (le a b || le b a) = true)
    (l : List α) (hnd : l.Nodup) :
    (l.mergeSort le).head? = l.find? (fun a => l.all (le a)) := by
  cases hs : l.mergeSort le with
  | nil =>
    have hlen : l.length = 0 := by
      have h1 := @List.length_mergeSort _ le l
      rw [hs] at h1
      simpa using h1.symm
    have : l = [] := List.length_eq_zero.mp hlen
    subst this
    rfl
  | cons hd tl =>
    have hmemhd : hd ∈ l := by
      rw [← @List.mem_mergeSort _ le hd l, hs]
      exact List.mem_cons_self _ _
    have hsorted := List.sorted_mergeSort trans total l
    rw [hs] at hsorted
    have hhd_all : l.all (le hd) = true := by
      rw [List.all_eq_true]
      intro x hx
      have hxsort : x ∈ hd :: tl := by
        rw [← hs]
        exact (@List.mem_mergeSort _ le x l).mpr hx
      rcases List.mem_cons.mp hxsort with rfl | hxtl
      · simpa using total x x
      · exact List.rel_of_pairwise_cons hsorted hxtl
    have hfind_some : (l.find? (fun a => l.all (le a))).isSome = true := by
      rw [List.find?_isSome]
      exact ⟨hd, hmemhd, hhd_all⟩
    cases hfind : l.find? (fun a => l.all (le a)) with
    | none => rw [hfind] at hfind_some; simp at hfind_some
    | some m =>
      have hpm : l.all (le m) = true := by
        have h1 := List.find?_some hfind
        simpa using h1
      by_cases heq : hd = m
      · subst heq; rfl
      · exfalso
        have hpair : [m, hd].Sublist l :=
          find?_pred_pair_sublist hfind hhd_all hmemhd heq
        have hlemhd : le m hd = true := List.all_eq_true.mp hpm hd hmemhd
        have hpairSorted : [m, hd].Sublist (l.mergeSort le) :=
          List.pair_sublist_mergeSort trans total hlemhd hpair
        rw [hs] at hpairSorted
        have hndSort : (hd :: tl).Nodup := by
          rw [← hs]
          exact ((List.mergeSort_perm l le).symm).nodup hnd
        have hhdninTl : hd ∉ tl := (List.nodup_cons.mp hndSort).1
        cases hpairSorted with
        | cons _ h2 =>
          exact hhdninTl (h2.subset (by simp))
        | cons₂ _ h2 =>
          exact heq rfl

/-! ### Helper lemmas about eviction -/

theorem countP_not_add {α : Type} (p : α → Bool) (l : List α) :
    l.countP (fun a => !p a) + l.countP p = l.length := by
  induction l with
  | nil => simp
  | cons x xs ih =>
    by_cases h : p x = true
    · simp [List.countP_cons, h]
      omega
    · simp [List.countP_cons, h]
      omega

/-- Removing the occurrences of one present identifier from a list with
duplicate-free identifiers removes exactly one element. -/
theorem length_filter_ne_id {l : List ThinkerNode} {t : ThinkerNode}
    (hnd : (l.map ThinkerNode.id).Nodup) (ht : t ∈ l) :
    (l.filter (fun n => n.id != t.id)).length + 1 = l.length := by
  have hone : l.countP (fun n => n.id == t.id) = 1 := by
    have h1 : List.count t.id (l.map ThinkerNode.id) = 1 :=
      List.count_eq_one_of_mem hnd (List.mem_map_of_mem _ ht)
    rw [List.count_eq_countP, List.countP_map] at h1
    simpa using h1
  have h2 := countP_not_add (fun n => n.id == t.id) l
  have h3 : (l.filter (fun n => n.id != t.id)).length
      = l.countP (fun n => !(n.id == t.id)) := by
    rw [List.countP_eq_length_filter]
    rfl
  omega

/-- Characterization of the eviction phase at or above capacity: the node
removed is the first one, in store iteration order, attaining the minimal
(generation, complexity) key. -/
theorem evictionPhase_at_capacity (st : SimSt) (hcap : MAX_NODES ≤ st.nodes.length)
    (hnd : (st.nodes.map ThinkerNode.id).Nodup) :
    ∃ t, st.nodes.find? (fun n => st.nodes.all (nodeLe n)) = some t ∧
      (evictionPhase st).nodes = st.nodes.filter (fun n => n.id != t.id) ∧
      (evictionPhase st).links = st.links.filter (fun l =>
        endpointId l.source != t.id && endpointId l.target != t.id) ∧
      (evictionPhase st).logs =
        addLog st.logs (t.name ++ " has transcended to the Void to make space.") .system ∧
      (evictionPhase st).cooldown = st.cooldown ∧
      (evictionPhase st).nodes.length + 1 = st.nodes.length := by
  have hnodup : st.nodes.Nodup := List.Nodup.of_map _ hnd
  have hhead := head?_mergeSort_eq_find?_min nodeLe nodeLe_trans nodeLe_total st.nodes hnodup
  cases hs : st.nodes.mergeSort nodeLe with
  | nil =>
    exfalso
    have h1 := @List.length_mergeSort _ nodeLe st.nodes
    rw [hs] at h1
    have h0 : st.nodes.length = 0 := by simpa using h1.symm
    rw [h0] at hcap
    simp [MAX_NODES] at hcap
  | cons t rest =>
    rw [hs] at hhead
    have hfind : st.nodes.find? (fun n => st.nodes.all (nodeLe n)) = some t := hhead.symm
    have htmem : t ∈ st.nodes := by
      rw [← @List.mem_mergeSort _ nodeLe t st.nodes, hs]
      exact List.mem_cons_self _ _
    refine ⟨t, hfind, ?_⟩
    unfold evictionPhase
    rw [if_pos hcap, hs]
    exact ⟨rfl, rfl, rfl, rfl, length_filter_ne_id hnd htmem⟩

/-- Below capacity the eviction phase does nothing. -/
theorem evictionPhase_below_capacity (st : SimSt) (h : st.nodes.length < MAX_NODES) :
    evictionPhase st = st := by
  unfold evictionPhase
  rw [if_neg (by omega)]

/-! ### Concrete states used in the claim theorems -/

def seedSource : ThinkerNode := INITIAL_NODES.getD 0 defaultNode

def seedHarmonic : ThinkerNode := INITIAL_NODES.getD 1 defaultNode

def emptyRawData : RawData := {}

def c1Loop0 : LoopSt :=
  { sim := initialSimSt, isPaused := false, isFluxMode := false
  , fluxPhase := 0, timeMultiplier := 1 }

def throwChoice : TickChoice := { pA := 0, pB := 1, res := .throwErr }

def c10LoopSt : LoopSt :=
  { sim := initialSimSt, isPaused := true, isFluxMode := true
  , fluxPhase := 0, timeMultiplier := 1 }

theorem clearCooldownAfterTick_cooldown (s : SimSt) :
    (clearCooldownAfterTick s).cooldown = false := by
  unfold clearCooldownAfterTick
  split
  · rfl
  · next h => simpa using h

/-! ### Claim theorems -/

/-- C1.  The claim says a tick whose synthesis throws or yields VOID puts the
scheduler in Cooldown and makes the following tick's delay 10000 ms.  On the
code this fails: the loop body clears the cooldown flag at the end of the
same iteration that set it, and the delay for the next tick was computed
before the evolution step ran, so the flag is false at the top of every loop
iteration and the 10000 ms branch is unreachable.  Concretely, a failing tick
from the initial state schedules the next tick at 6000 ms, and so does the
tick after it. -/
theorem cooldown_never_affects_delay :
    (∀ (f : ℚ → ℚ) (ls : LoopSt) (c : TickChoice),
      (loopTick f ls c).1.sim.cooldown = false) ∧
    (performEvolutionStep initialSimSt 0 1 .throwErr).1.cooldown = true ∧
    (loopTick (fun _ => 1) c1Loop0 throwChoice).2 = 6000 ∧
    (loopTick (fun _ => 1) ((loopTick (fun _ => 1) c1Loop0 throwChoice).1) throwChoice).2 = 6000 := by
  refine ⟨?_, by decide, by decide, by decide⟩
  intro f ls c
  exact clearCooldownAfterTick_cooldown _

/-- C2, counterexample.  A response that parses as JSON but misses every
required field is not surfaced as a failure: the client returns a success
carrying a malformed entity whose archetype is absent — which the scheduler's
`=== VOID` test does not catch, so the entity would be committed. -/
theorem synthesis_client_missing_fields_not_failure :
    evolveThinkers true seedSource seedHarmonic 0 "fresh-id" 0 (.ok emptyRawData)
      = .ok (mkEvolvedNode seedSource seedHarmonic 0 "fresh-id" 0 emptyRawData, none) ∧
    rawIsVoidForScheduler (mkEvolvedNode seedSource seedHarmonic 0 "fresh-id" 0 emptyRawData) = false ∧
    (mkEvolvedNode seedSource seedHarmonic 0 "fresh-id" 0 emptyRawData).name = none ∧
    (mkEvolvedNode seedSource seedHarmonic 0 "fresh-id" 0 emptyRawData).stats.logic = none := by
  exact ⟨rfl, by decide, rfl, rfl⟩

/-- C2, amended.  The client performs no schema validation: every parsed
response object is returned as a success, each field (present or absent)
passing through unchanged into the constructed entity, and only the literal
string value "VOID" in the archetype field triggers the scheduler's VOID
handling.  (Transport and parse failures are converted internally to the
well-formed VOID fallback entity rather than surfacing as a failure.) -/
theorem synthesis_client_no_validation (pa pb : ThinkerNode) (g : Nat)
    (fid : String) (seed : ℚ) (data : RawData) :
    evolveThinkers true pa pb g fid seed (.ok data)
      = .ok (mkEvolvedNode pa pb g fid seed data, data.reasoning) ∧
    (mkEvolvedNode pa pb g fid seed data).name = data.name ∧
    (mkEvolvedNode pa pb g fid seed data).archetype = data.archetype ∧
    (mkEvolvedNode pa pb g fid seed data).stats.logic = data.logic ∧
    (mkEvolvedNode pa pb g fid seed data).stats.creativity = data.creativity ∧
    (mkEvolvedNode pa pb g fid seed data).stats.empathy = data.empathy ∧
    (mkEvolvedNode pa pb g fid seed data).stats.complexity = data.complexity ∧
    (mkEvolvedNode pa pb g fid seed data).description = data.description ∧
    (rawIsVoidForScheduler (mkEvolvedNode pa pb g fid seed data) = true
      ↔ data.archetype = some "VOID") := by
  refine ⟨rfl, rfl, rfl, rfl, rfl, rfl, rfl, rfl, ?_⟩
  simp [rawIsVoidForScheduler, mkEvolvedNode]

/-- C4.  The claim says the log buffer holds at most 50 entries after any
log write.  On the code this fails by one: `addLog` keeps the last 50
entries of the previous buffer and then appends the new entry, so a write to
a buffer holding 50 or more entries leaves 51; from the 1-entry boot buffer,
50 writes reach length 51. -/
theorem log_buffer_holds_51 :
    (∀ (logs : List LogEntry) (m : String) (t : LogType),
      (addLog logs m t).length = min logs.length 50 + 1) ∧
    ((List.range 50).foldl (fun ls i => addLog ls (toString i) .system) initialLogs).length = 51 := by
  constructor
  · intro logs m t
    simp [addLog]
    omega
  · decide

/-- C10.  A tick scheduled while the loop is paused with flux mode on (and
the cooldown flag clear, which C1's analysis shows is the only reachable
loop-top state) still advances the flux phase by 0.1 and recomputes the
displayed multiplier from the new phase, while the simulation state is
untouched and the synthesis oracle is never consulted. -/
theorem paused_flux_tick_advances_phase (f : ℚ → ℚ) (ls : LoopSt) (c c' : TickChoice)
    (hp : ls.isPaused = true) (hx : ls.isFluxMode = true) (hc : ls.sim.cooldown = false) :
    (loopTick f ls c).1.fluxPhase = ls.fluxPhase + 1/10 ∧
    (loopTick f ls c).1.timeMultiplier = f (ls.fluxPhase + 1/10) ∧
    (loopTick f ls c).1.sim = ls.sim ∧
    loopTick f ls c = loopTick f ls c' := by
  simp [loopTick, hp, hx, hc, clearCooldownAfterTick]

/-- Witness for C10 at a concrete paused, flux-enabled state. -/
theorem paused_flux_tick_advances_phase_witness :
    (c10LoopSt.isPaused = true ∧ c10LoopSt.isFluxMode = true ∧
      c10LoopSt.sim.cooldown = false) ∧
    ((loopTick (fun _ => 1) c10LoopSt throwChoice).1.fluxPhase = c10LoopSt.fluxPhase + 1/10 ∧
     (loopTick (fun _ => 1) c10LoopSt throwChoice).1.timeMultiplier = (fun _ : ℚ => (1 : ℚ)) (c10LoopSt.fluxPhase + 1/10) ∧
     (loopTick (fun _ => 1) c10LoopSt throwChoice).1.sim = c10LoopSt.sim ∧
     loopTick (fun _ => 1) c10LoopSt throwChoice
       = loopTick (fun _ => 1) c10LoopSt { pA := 2, pB := 3, res := .ok defaultNode "r" }) :=
  ⟨⟨rfl, rfl, rfl⟩,
   paused_flux_tick_advances_phase (fun _ => 1) c10LoopSt throwChoice
     { pA := 2, pB := 3, res := .ok defaultNode "r" } rfl rfl rfl⟩

/-! ### Helper lemmas about the synthesis branches of the tick -/

theorem performStep_throw (st : SimSt) (pA pB : Nat)
    (hnl : ¬ (evictionPhase st).nodes.length < 2) :
    (performEvolutionStep st pA pB .throwErr).1.nodes = (evictionPhase st).nodes ∧
    (performEvolutionStep st pA pB .throwErr).1.links = (evictionPhase st).links ∧
    (performEvolutionStep st pA pB .throwErr).1.cooldown = true ∧
    (performEvolutionStep st pA pB .throwErr).2 = none := by
  simp only [performEvolutionStep]
  rw [if_neg hnl]
  exact ⟨rfl, rfl, rfl, rfl⟩

theorem performStep_void (st : SimSt) (pA pB : Nat) (child : ThinkerNode) (r : String)
    (hv : child.archetype = .VOID)
    (hnl : ¬ (evictionPhase st).nodes.length < 2) :
    (performEvolutionStep st pA pB (.ok child r)).1.nodes = (evictionPhase st).nodes ∧
    (performEvolutionStep st pA pB (.ok child r)).1.links = (evictionPhase st).links ∧
    (performEvolutionStep st pA pB (.ok child r)).1.cooldown = true ∧
    (performEvolutionStep st pA pB (.ok child r)).2 = none ∧
    (performEvolutionStep st pA pB (.ok child r)).1.logs =
      addLog (addLog (addLog (evictionPhase st).logs
          ("Initiating synthesis: "
            ++ ((evictionPhase st).nodes.getD pA defaultNode).name ++ " + "
            ++ ((evictionPhase st).nodes.getD pB defaultNode).name ++ "...") .evolution)
        "Tesla Protocol: Sanctuary Declared. Syntropic Override engaged." .conflict)
        ("Broadcasting Impossible Truth: \"" ++ impossibleTruthText ++ "\"") .system := by
  simp only [performEvolutionStep]
  rw [if_neg hnl]
  simp [hv]

/-! ### More claim theorems -/

/-- The concrete "significant" child used for the persistence-ordering claim:
complexity 6 exceeds the auto-preservation threshold of 5. -/
def c5Child : ThinkerNode :=
  { id := "child-significant", name := "Pivot", archetype := .MYSTIC
  , stats := { logic := 0, creativity := 0, empathy := 0, complexity := 6 }
  , generation := 1, parents := ["seed-source", "seed-harmonic"]
  , description := "d", instrument := "Cello", avatarSeed := 0 }

/-- C5.  The claim says the new entity is committed to the Store before the
immediate persistence snapshot fires, so the snapshot contains it.  On the
code this fails: `handleSave(true)` runs before the `setNodes`/`setLinks`
calls that commit the child, so the snapshot taken for a significant child is
the pre-birth store.  Concretely, a successful synthesis of a complexity-6
child from the seed state produces a snapshot equal to the pre-birth store
(without the child or its edges) while the committed state does contain the
child and its two ancestry edges. -/
theorem snapshot_excludes_newborn :
    (performEvolutionStep initialSimSt 0 1 (.ok c5Child "r")).2 = some (INITIAL_NODES, []) ∧
    hasNodeId INITIAL_NODES "child-significant" = false ∧
    hasNodeId (performEvolutionStep initialSimSt 0 1 (.ok c5Child "r")).1.nodes
      "child-significant" = true ∧
    ancestryInDeg (performEvolutionStep initialSimSt 0 1 (.ok c5Child "r")).1.links
      "child-significant" = 2 :=
  ⟨rfl, by decide, by decide, by decide⟩

/-- C6.  A tick whose synthesis succeeds with a VOID-archetype child adds no
entity and no links (the store keeps exactly the post-eviction contents),
sets the cooldown flag, produces no snapshot, and emits the `conflict` and
`system` log entries after the synthesis-initiation entry. -/
theorem void_synthesis_tick (st : SimSt) (pA pB : Nat) (child : ThinkerNode) (r : String)
    (hv : child.archetype = .VOID)
    (hlen : 2 ≤ (evictionPhase st).nodes.length) :
    (performEvolutionStep st pA pB (.ok child r)).1.nodes = (evictionPhase st).nodes ∧
    (performEvolutionStep st pA pB (.ok child r)).1.links = (evictionPhase st).links ∧
    (performEvolutionStep st pA pB (.ok child r)).1.cooldown = true ∧
    (performEvolutionStep st pA pB (.ok child r)).2 = none ∧
    (performEvolutionStep st pA pB (.ok child r)).1.logs =
      addLog (addLog (addLog (evictionPhase st).logs
          ("Initiating synthesis: "
            ++ ((evictionPhase st).nodes.getD pA defaultNode).name ++ " + "
            ++ ((evictionPhase st).nodes.getD pB defaultNode).name ++ "...") .evolution)
        "Tesla Protocol: Sanctuary Declared. Syntropic Override engaged." .conflict)
        ("Broadcasting Impossible Truth: \"" ++ impossibleTruthText ++ "\"") .system :=
  performStep_void st pA pB child r hv (by omega)

/-- The concrete VOID child used in the C6 witness: the client's own fallback
entity. -/
def voidChild : ThinkerNode :=
  { id := "void-child", name := "Vacuum Resonator", archetype := .VOID
  , stats := { logic := 10, creativity := 10, empathy := 100, complexity := 5 }
  , generation := 1, parents := ["seed-source", "seed-harmonic"]
  , description := "A moment of silence. The void listens."
  , instrument := "Void Harp", avatarSeed := 0 }

/-- Witness for C6 at the seed state. -/
theorem void_synthesis_tick_witness :
    (voidChild.archetype = .VOID ∧ 2 ≤ (evictionPhase initialSimSt).nodes.length) ∧
    ((performEvolutionStep initialSimSt 0 1 (.ok voidChild "r")).1.nodes
        = (evictionPhase initialSimSt).nodes ∧
     (performEvolutionStep initialSimSt 0 1 (.ok voidChild "r")).1.links
        = (evictionPhase initialSimSt).links ∧
     (performEvolutionStep initialSimSt 0 1 (.ok voidChild "r")).1.cooldown = true ∧
     (performEvolutionStep initialSimSt 0 1 (.ok voidChild "r")).2 = none ∧
     (performEvolutionStep initialSimSt 0 1 (.ok voidChild "r")).1.logs =
       addLog (addLog (addLog (evictionPhase initialSimSt).logs
           ("Initiating synthesis: "
             ++ ((evictionPhase initialSimSt).nodes.getD 0 defaultNode).name ++ " + "
             ++ ((evictionPhase initialSimSt).nodes.getD 1 defaultNode).name ++ "...") .evolution)
         "Tesla Protocol: Sanctuary Declared. Syntropic Override engaged." .conflict)
         ("Broadcasting Impossible Truth: \"" ++ impossibleTruthText ++ "\"") .system) :=
  ⟨⟨rfl, by decide⟩,
   void_synthesis_tick initialSimSt 0 1 voidChild "r" rfl (by decide)⟩

/-- C7.  Below capacity no eviction happens; at or above capacity exactly one
entity is evicted before any addition: the first node in store iteration
order attaining the minimal (generation, complexity) key — the `find?`
characterization of "lexicographically smallest, ties broken by iteration
order" — together with every link that names it, and a `system` log entry
naming it is emitted. -/
theorem eviction_selects_first_min (st : SimSt)
    (hnd : (st.nodes.map ThinkerNode.id).Nodup) :
    (st.nodes.length < MAX_NODES → evictionPhase st = st) ∧
    (MAX_NODES ≤ st.nodes.length →
      ∃ t, st.nodes.find? (fun n => st.nodes.all (nodeLe n)) = some t ∧
        (evictionPhase st).nodes = st.nodes.filter (fun n => n.id != t.id) ∧
        (evictionPhase st).links = st.links.filter (fun l =>
          endpointId l.source != t.id && endpointId l.target != t.id) ∧
        (evictionPhase st).logs =
          addLog st.logs (t.name ++ " has transcended to the Void to make space.") .system ∧
        (evictionPhase st).nodes.length + 1 = st.nodes.length) := by
  constructor
  · exact evictionPhase_below_capacity st
  · intro hcap
    obtain ⟨t, h1, h2, h3, h4, _, h6⟩ := evictionPhase_at_capacity st hcap hnd
    exact ⟨t, h1, h2, h3, h4, h6⟩

/-- A generic filler node; distinct identifiers, complexity growing with the
index. -/
def mkPlainNode (i : Nat) : ThinkerNode :=
  { id := "n" ++ toString i, name := "Node " ++ toString i, archetype := .MYSTIC
  , stats := { logic := 10, creativity := 10, empathy := 10, complexity := (i : Int) }
  , generation := 1, parents := [], description := "plain", instrument := "Bell"
  , avatarSeed := 0 }

/-- A store exactly at capacity. -/
def bigSimSt : SimSt :=
  { nodes := (List.range MAX_NODES).map mkPlainNode
  , links := [], logs := [], cooldown := false }

/-- Witness for C7 at a store exactly at capacity. -/
theorem eviction_selects_first_min_witness :
    (bigSimSt.nodes.map ThinkerNode.id).Nodup ∧
    ((bigSimSt.nodes.length < MAX_NODES → evictionPhase bigSimSt = bigSimSt) ∧
     (MAX_NODES ≤ bigSimSt.nodes.length →
       ∃ t, bigSimSt.nodes.find? (fun n => bigSimSt.nodes.all (nodeLe n)) = some t ∧
         (evictionPhase bigSimSt).nodes = bigSimSt.nodes.filter (fun n => n.id != t.id) ∧
         (evictionPhase bigSimSt).links = bigSimSt.links.filter (fun l =>
           endpointId l.source != t.id && endpointId l.target != t.id) ∧
         (evictionPhase bigSimSt).logs =
           addLog bigSimSt.logs (t.name ++ " has transcended to the Void to make space.") .system ∧
         (evictionPhase bigSimSt).nodes.length + 1 = bigSimSt.nodes.length)) :=
  ⟨by decide, eviction_selects_first_min bigSimSt (by decide)⟩

/-- C9.  A tick that starts at or above capacity evicts its candidate no
matter how the synthesis then ends: if the call throws or returns a VOID
child, the store still holds exactly the post-eviction contents, so the tick
strictly decreases the population by one. -/
theorem eviction_survives_failed_synthesis (st : SimSt) (pA pB : Nat) (res : SynthOutcome)
    (hcap : MAX_NODES ≤ st.nodes.length)
    (hnd : (st.nodes.map ThinkerNode.id).Nodup)
    (hres : res = .throwErr ∨ ∃ ch r, res = .ok ch r ∧ ch.archetype = .VOID) :
    (performEvolutionStep st pA pB res).1.nodes = (evictionPhase st).nodes ∧
    (performEvolutionStep st pA pB res).1.links = (evictionPhase st).links ∧
    (performEvolutionStep st pA pB res).1.nodes.length + 1 = st.nodes.length := by
  obtain ⟨t, _, _, _, _, _, hlen⟩ := evictionPhase_at_capacity st hcap hnd
  have hge2 : ¬ (evictionPhase st).nodes.length < 2 := by
    simp only [MAX_NODES] at hcap
    omega
  rcases hres with rfl | ⟨ch, r, rfl, hv⟩
  · obtain ⟨hn, hl, _, _⟩ := performStep_throw st pA pB hge2
    exact ⟨hn, hl, by rw [hn]; omega⟩
  · obtain ⟨hn, hl, _, _, _⟩ := performStep_void st pA pB ch r hv hge2
    exact ⟨hn, hl, by rw [hn]; omega⟩

/-- Witness for C9 at a store exactly at capacity with a throwing synthesis. -/
theorem eviction_survives_failed_synthesis_witness :
    (MAX_NODES ≤ bigSimSt.nodes.length ∧ (bigSimSt.nodes.map ThinkerNode.id).Nodup) ∧
    ((performEvolutionStep bigSimSt 0 1 .throwErr).1.nodes = (evictionPhase bigSimSt).nodes ∧
     (performEvolutionStep bigSimSt 0 1 .throwErr).1.links = (evictionPhase bigSimSt).links ∧
     (performEvolutionStep bigSimSt 0 1 .throwErr).1.nodes.length + 1 = bigSimSt.nodes.length) :=
  ⟨⟨by decide, by decide⟩,
   eviction_survives_failed_synthesis bigSimSt 0 1 .throwErr (by decide) (by decide) (Or.inl rfl)⟩

/-! ### Round-trip helper lemmas -/

theorem endpointId_renderMutated {o r : Endpoint} (h : endpointRenderMutated o r) :
    endpointId r = endpointId o := by
  rcases h with rfl | ⟨n, rfl, hid⟩
  · rfl
  · simpa [endpointId] using hid

theorem cleanLink_renderMutated {o r : Link} (h : linkRenderMutated o r) :
    cleanLink r = cleanLink o := by
  obtain ⟨hs, ht, hstr, hty⟩ := h
  simp only [cleanLink]
  rw [endpointId_renderMutated hs, endpointId_renderMutated ht, hstr, hty]

theorem nodeCore_renderMutated {o r : ThinkerNode} (h : nodeRenderMutated o r) :
    nodeCore r = nodeCore o := by
  obtain ⟨h1, _, _, h4, h5, h6, _, _, _⟩ := h
  simp [nodeCore, h1, h4, h5, h6]

theorem map_eq_of_forall₂ {α β : Type} {R : α → α → Prop} {f : α → β}
    (hf : ∀ a b, R a b → f b = f a) :
    ∀ {l₁ l₂ : List α}, List.Forall₂ R l₁ l₂ → l₂.map f = l₁.map f := by
  intro l₁ l₂ h
  induction h with
  | nil => rfl
  | cons hR _ ih => simp only [List.map_cons, hf _ _ hR, ih]

/-- C8.  Saving and then loading reproduces an equivalent entity/edge set —
same identifiers, stats, generations and parent lists, and edges expressed by
endpoint identifiers — no matter how the render layer mutated node
coordinates or replaced link endpoints by live node objects between commit
and save, because `handleSave` reconstructs identifier-only edges. -/
theorem save_load_roundtrip (st rst other : AppState)
    (hn : List.Forall₂ nodeRenderMutated st.nodes rst.nodes)
    (hl : List.Forall₂ linkRenderMutated st.links rst.links) :
    (handleLoad other (handleSave rst)).nodes.map nodeCore = st.nodes.map nodeCore ∧
    (handleLoad other (handleSave rst)).links = st.links.map cleanLink := by
  constructor
  · show rst.nodes.map nodeCore = st.nodes.map nodeCore
    exact map_eq_of_forall₂ (fun a b hab => nodeCore_renderMutated hab) hn
  · show rst.links.map cleanLink = st.links.map cleanLink
    exact map_eq_of_forall₂ (fun a b hab => cleanLink_renderMutated hab) hl

/-- A two-seed store whose single ancestry link is still identifier-only. -/
def c8Base : AppState :=
  { nodes := INITIAL_NODES.take 2
  , links := [{ source := .id "seed-source", target := .id "seed-harmonic"
              , strength := 1, type := .ancestry }]
  , logs := initialLogs, isFluxMode := false, timeMultiplier := 1, fluxPhase := 0 }

/-- The same store after the render layer replaced both link endpoints by the
live node objects. -/
def c8Rendered : AppState :=
  { c8Base with
    links := [{ source := .node seedSource, target := .node seedHarmonic
              , strength := 1, type := .ancestry }] }

/-- Witness for C8 on a store whose link was object-mutated by the renderer. -/
theorem save_load_roundtrip_witness :
    (List.Forall₂ nodeRenderMutated c8Base.nodes c8Rendered.nodes ∧
     List.Forall₂ linkRenderMutated c8Base.links c8Rendered.links) ∧
    ((handleLoad c8Rendered (handleSave c8Rendered)).nodes.map nodeCore
        = c8Base.nodes.map nodeCore ∧
     (handleLoad c8Rendered (handleSave c8Rendered)).links = c8Base.links.map cleanLink) := by
  have hn : List.Forall₂ nodeRenderMutated c8Base.nodes c8Rendered.nodes := by
    show List.Forall₂ nodeRenderMutated c8Base.nodes c8Base.nodes
    exact List.forall₂_same.mpr
      (fun x _ => ⟨rfl, rfl, rfl, rfl, rfl, rfl, rfl, rfl, rfl⟩)
  have hl : List.Forall₂ linkRenderMutated c8Base.links c8Rendered.links := by
    refine List.Forall₂.cons ?_ List.Forall₂.nil
    exact ⟨Or.inr ⟨seedSource, rfl, rfl⟩, Or.inr ⟨seedHarmonic, rfl, rfl⟩, rfl, rfl⟩
  exact ⟨⟨hn, hl⟩, save_load_roundtrip c8Base c8Rendered c8Rendered hn hl⟩

/-! ### Invariant preservation lemmas -/

theorem hasNodeId_iff {ns : List ThinkerNode} {s : String} :
    hasNodeId ns s = true ↔ ∃ n ∈ ns, n.id = s := by
  simp [hasNodeId, List.any_eq_true]

theorem hasNodeId_append_left {ns ms : List ThinkerNode} {s : String}
    (h : hasNodeId ns s = true) : hasNodeId (ns ++ ms) s = true := by
  simp only [hasNodeId, List.any_append, Bool.or_eq_true]
  exact Or.inl h

theorem ancestryInDeg_append (xs ys : List Link) (s : String) :
    ancestryInDeg (xs ++ ys) s = ancestryInDeg xs s + ancestryInDeg ys s := by
  simp [ancestryInDeg, List.filter_append]

theorem ancestryInDeg_zero_of_no_target {xs : List Link} {s : String}
    (h : ∀ l ∈ xs, l.type = LinkType.ancestry → endpointId l.target ≠ s) :
    ancestryInDeg xs s = 0 := by
  simp only [ancestryInDeg, List.length_eq_zero, List.filter_eq_nil_iff]
  intro l hl
  simp only [Bool.and_eq_true, beq_iff_eq, not_and]
  intro ht
  exact fun hg => h l hl ht hg

theorem ancestryInDeg_filter_le (p : Link → Bool) (ls : List Link) (s : String) :
    ancestryInDeg (ls.filter p) s ≤ ancestryInDeg ls s :=
  List.Sublist.length_le (List.Sublist.filter _ (List.filter_sublist ls))

/-- Bool-to-Prop bridge for the inner per-link condition of the invariant. -/
theorem ancestry_source_bool_iff (n : ThinkerNode) (l : Link) :
    ((!(l.type == LinkType.ancestry && endpointId l.target == n.id))
       || n.parents.contains (endpointId l.source)) = true ↔
      (l.type = LinkType.ancestry → endpointId l.target = n.id →
        endpointId l.source ∈ n.parents) := by
  rw [Bool.or_eq_true, Bool.not_eq_true', Bool.and_eq_false_iff]
  constructor
  · intro h ht hg
    rcases h with h1 | h2
    · rcases h1 with h1 | h1
      · exact absurd (beq_iff_eq.mpr ht) (by simp [h1])
      · exact absurd (beq_iff_eq.mpr hg) (by simp [h1])
    · exact List.elem_iff.mp h2
  · intro h
    by_cases ht : l.type = LinkType.ancestry
    · by_cases hg : endpointId l.target = n.id
      · exact Or.inr (List.elem_iff.mpr (h ht hg))
      · exact Or.inl (Or.inr (beq_eq_false_iff_ne.mpr hg))
    · exact Or.inl (Or.inl (beq_eq_false_iff_ne.mpr ht))

/-- Prop form of `storeInvariant`. -/
theorem storeInvariant_iff (st : SimSt) :
    storeInvariant st = true ↔
      ((∀ n ∈ st.nodes, ancestryInDeg st.links n.id ≤ 2 ∧
          ∀ l ∈ st.links, l.type = LinkType.ancestry → endpointId l.target = n.id →
            endpointId l.source ∈ n.parents) ∧
        ∀ l ∈ st.links, hasNodeId st.nodes (endpointId l.source) = true ∧
          hasNodeId st.nodes (endpointId l.target) = true) := by
  unfold storeInvariant
  rw [Bool.and_eq_true, List.all_eq_true, List.all_eq_true]
  apply and_congr
  · apply forall_congr'
    intro n
    apply imp_congr Iff.rfl
    rw [Bool.and_eq_true, decide_eq_true_iff, List.all_eq_true]
    apply and_congr Iff.rfl
    apply forall_congr'
    intro l
    exact imp_congr Iff.rfl (ancestry_source_bool_iff n l)
  · apply forall_congr'
    intro l
    exact imp_congr Iff.rfl (iff_of_eq (Bool.and_eq_true _ _))

theorem storeInvariant_evictionPhase (st : SimSt) (h : storeInvariant st = true) :
    storeInvariant (evictionPhase st) = true := by
  unfold evictionPhase
  split
  · split
    · exact h
    · next t rest hs =>
      rw [storeInvariant_iff] at h ⊢
      obtain ⟨hA, hB⟩ := h
      constructor
      · intro n hn
        have hn' : n ∈ st.nodes := (List.mem_filter.mp hn).1
        obtain ⟨hdeg, hsrc⟩ := hA n hn'
        refine ⟨le_trans (ancestryInDeg_filter_le _ _ _) hdeg, ?_⟩
        intro l hl ht hg
        exact hsrc l (List.mem_filter.mp hl).1 ht hg
      · intro l hl
        obtain ⟨hl', hcond⟩ := List.mem_filter.mp hl
        rw [Bool.and_eq_true] at hcond
        obtain ⟨hcs, hct⟩ := hcond
        have hcs' : endpointId l.source ≠ t.id := by simpa using hcs
        have hct' : endpointId l.target ≠ t.id := by simpa using hct
        obtain ⟨hsrcEx, htgtEx⟩ := hB l hl'
        constructor
        · obtain ⟨n, hn, hid⟩ := hasNodeId_iff.mp hsrcEx
          refine hasNodeId_iff.mpr ⟨n, List.mem_filter.mpr ⟨hn, ?_⟩, hid⟩
          simpa [hid] using hcs'
        · obtain ⟨n, hn, hid⟩ := hasNodeId_iff.mp htgtEx
          refine hasNodeId_iff.mpr ⟨n, List.mem_filter.mpr ⟨hn, ?_⟩, hid⟩
          simpa [hid] using hct'
  · exact h

theorem storeInvariant_eq_of_core (st' st : SimSt)
    (hn : st'.nodes = st.nodes) (hl : st'.links = st.links) :
    storeInvariant st' = storeInvariant st := by
  unfold storeInvariant
  rw [hn, hl]

/-- Committing a fresh child together with links that either are ancestry
links into the child from its recorded parents, or interaction links out of
the child into existing nodes, preserves the invariant as long as at most two
of them are ancestry links. -/
theorem storeInvariant_commit (st1 : SimSt) (child : ThinkerNode) (newLinks : List Link)
    (lg : List LogEntry) (cd : Bool)
    (hinv : storeInvariant st1 = true)
    (hfresh : hasNodeId st1.nodes child.id = false)
    (hmem : ∀ l ∈ newLinks,
       (l.type = LinkType.ancestry ∧ endpointId l.target = child.id ∧
         endpointId l.source ∈ child.parents ∧
         hasNodeId st1.nodes (endpointId l.source) = true) ∨
       (l.type = LinkType.interaction ∧ endpointId l.source = child.id ∧
         hasNodeId st1.nodes (endpointId l.target) = true))
    (hdeg : ancestryInDeg newLinks child.id ≤ 2) :
    storeInvariant { nodes := st1.nodes ++ [child], links := st1.links ++ newLinks
                   , logs := lg, cooldown := cd } = true := by
  rw [storeInvariant_iff] at hinv ⊢
  obtain ⟨hA, hB⟩ := hinv
  have hfresh' : ∀ n ∈ st1.nodes, n.id ≠ child.id := by
    intro n hn he
    have hcontra : hasNodeId st1.nodes child.id = true := hasNodeId_iff.mpr ⟨n, hn, he⟩
    rw [hfresh] at hcontra
    cases hcontra
  constructor
  · intro n hn
    rcases List.mem_append.mp hn with hn1 | hn2
    · obtain ⟨hdegn, hsrcn⟩ := hA n hn1
      have hne : n.id ≠ child.id := hfresh' n hn1
      have hzero : ancestryInDeg newLinks n.id = 0 := by
        apply ancestryInDeg_zero_of_no_target
        intro l hl ht
        rcases hmem l hl with ⟨_, hg, _, _⟩ | ⟨hti, _, _⟩
        · rw [hg]
          exact fun he => hne he.symm
        · rw [ht] at hti
          cases hti
      constructor
      · rw [ancestryInDeg_append, hzero]
        simpa using hdegn
      · intro l hl ht hg
        rcases List.mem_append.mp hl with hl1 | hl2
        · exact hsrcn l hl1 ht hg
        · exfalso
          rcases hmem l hl2 with ⟨_, hg2, _, _⟩ | ⟨hti, _, _⟩
          · rw [hg] at hg2
            exact hne hg2
          · rw [ht] at hti
            cases hti
    · have hnc : n = child := by simpa using hn2
      subst hnc
      have hold : ancestryInDeg st1.links n.id = 0 := by
        apply ancestryInDeg_zero_of_no_target
        intro l hl ht hg
        obtain ⟨_, htgtEx⟩ := hB l hl
        rw [hg] at htgtEx
        rw [hfresh] at htgtEx
        cases htgtEx
      constructor
      · rw [ancestryInDeg_append, hold]
        simpa using hdeg
      · intro l hl ht hg
        rcases List.mem_append.mp hl with hl1 | hl2
        · exfalso
          obtain ⟨_, htgtEx⟩ := hB l hl1
          rw [hg] at htgtEx
          rw [hfresh] at htgtEx
          cases htgtEx
        · rcases hmem l hl2 with ⟨_, _, hsrcp, _⟩ | ⟨hti, _, _⟩
          · exact hsrcp
          · rw [ht] at hti
            cases hti
  · intro l hl
    have hchild : hasNodeId (st1.nodes ++ [child]) child.id = true :=
      hasNodeId_iff.mpr ⟨child, List.mem_append.mpr (Or.inr (by simp)), rfl⟩
    rcases List.mem_append.mp hl with hl1 | hl2
    · obtain ⟨hx, hy⟩ := hB l hl1
      exact ⟨hasNodeId_append_left hx, hasNodeId_append_left hy⟩
    · rcases hmem l hl2 with ⟨_, hg, _, hsEx⟩ | ⟨_, hs, htEx⟩
      · refine ⟨hasNodeId_append_left hsEx, ?_⟩
        rw [hg]
        exact hchild
      · refine ⟨?_, hasNodeId_append_left htEx⟩
        rw [hs]
        exact hchild

theorem ancestryInDeg_map_interaction {β : Type} (f : β → Link) (ts : List β) (s : String)
    (hf : ∀ t, (f t).type = LinkType.interaction) :
    ancestryInDeg (ts.map f) s = 0 := by
  apply ancestryInDeg_zero_of_no_target
  intro l hl ht
  obtain ⟨t, _, rfl⟩ := List.mem_map.mp hl
  rw [hf t] at ht
  cases ht

/-- One tick preserves the weakened ancestry invariant, given the oracle side
conditions. -/
theorem storeInvariant_tick (st : SimSt) (c : TickChoice)
    (h1 : storeInvariant st = true) (h2 : freshChoice st c = true) :
    storeInvariant (tick st c) = true := by
  have hst1 : storeInvariant (evictionPhase st) = true := storeInvariant_evictionPhase st h1
  by_cases hlt : (evictionPhase st).nodes.length < 2
  · have htick : tick st c = evictionPhase st := by
      simp only [tick, performEvolutionStep]
      rw [if_pos hlt]
    rw [htick]
    exact hst1
  · simp only [freshChoice] at h2
    rw [if_neg hlt] at h2
    cases hres : c.res with
    | throwErr =>
      have hn : (tick st c).nodes = (evictionPhase st).nodes ∧
          (tick st c).links = (evictionPhase st).links := by
        simp only [tick, performEvolutionStep, hres]
        rw [if_neg hlt]
        exact ⟨rfl, rfl⟩
      rw [storeInvariant_eq_of_core _ _ hn.1 hn.2]
      exact hst1
    | ok child r =>
      rw [hres] at h2
      simp only [Bool.and_eq_true, decide_eq_true_eq, Bool.not_eq_true', beq_iff_eq] at h2
      obtain ⟨⟨hpa, hpb⟩, hfresh, hparents⟩ := h2
      have hpamem : (evictionPhase st).nodes.getD c.pA defaultNode ∈ (evictionPhase st).nodes := by
        rw [List.getD_eq_getElem _ _ hpa]
        exact List.getElem_mem _
      have hpbmem : (evictionPhase st).nodes.getD c.pB defaultNode ∈ (evictionPhase st).nodes := by
        rw [List.getD_eq_getElem _ _ hpb]
        exact List.getElem_mem _
      have hpaId : hasNodeId (evictionPhase st).nodes
          ((evictionPhase st).nodes.getD c.pA defaultNode).id = true :=
        hasNodeId_iff.mpr ⟨_, hpamem, rfl⟩
      have hpbId : hasNodeId (evictionPhase st).nodes
          ((evictionPhase st).nodes.getD c.pB defaultNode).id = true :=
        hasNodeId_iff.mpr ⟨_, hpbmem, rfl⟩
      by_cases hv : child.archetype = Archetype.VOID
      · have hn : (tick st c).nodes = (evictionPhase st).nodes ∧
            (tick st c).links = (evictionPhase st).links := by
          simp only [tick, performEvolutionStep, hres]
          rw [if_neg hlt, if_pos hv]
          exact ⟨rfl, rfl⟩
        rw [storeInvariant_eq_of_core _ _ hn.1 hn.2]
        exact hst1
      · by_cases hreson : RESONANCE_THRESHOLD < child.stats.logic + child.stats.empathy
        · simp only [tick, performEvolutionStep, hres]
          rw [if_neg hlt, if_neg hv]
          simp only [decide_eq_true_eq]
          rw [if_pos hreson, if_pos hreson]
          refine storeInvariant_commit _ child _ _ _ hst1 hfresh ?_ ?_
          · intro l hl
            rcases List.mem_append.mp hl with hl1 | hl2
            · rcases List.mem_cons.mp hl1 with rfl | hl1
              · refine Or.inl ⟨rfl, rfl, ?_, hpaId⟩
                rw [hparents]
                exact List.mem_cons_self _ _
              · rcases List.mem_cons.mp hl1 with rfl | hl1
                · refine Or.inl ⟨rfl, rfl, ?_, hpbId⟩
                  rw [hparents]
                  exact List.mem_cons.mpr (Or.inr (List.mem_cons_self _ _))
                · cases hl1
            · obtain ⟨t, ht, rfl⟩ := List.mem_map.mp hl2
              have htmem : t ∈ (evictionPhase st).nodes :=
                (List.mem_filter.mp (List.mem_of_mem_take ht)).1
              exact Or.inr ⟨rfl, rfl, hasNodeId_iff.mpr ⟨t, htmem, rfl⟩⟩
          · rw [ancestryInDeg_append,
              ancestryInDeg_map_interaction _ _ _ (fun t => rfl)]
            simp [ancestryInDeg, endpointId]
        · simp only [tick, performEvolutionStep, hres]
          rw [if_neg hlt, if_neg hv]
          simp only [decide_eq_true_eq]
          rw [if_neg hreson, if_neg hreson]
          refine storeInvariant_commit _ child _ _ _ hst1 hfresh ?_ ?_
          · intro l hl
            rcases List.mem_cons.mp hl with rfl | hl1
            · refine Or.inl ⟨rfl, rfl, ?_, hpaId⟩
              rw [hparents]
              exact List.mem_cons_self _ _
            · rcases List.mem_cons.mp hl1 with rfl | hl1
              · refine Or.inl ⟨rfl, rfl, ?_, hpbId⟩
                rw [hparents]
                exact List.mem_cons.mpr (Or.inr (List.mem_cons_self _ _))
              · cases hl1
          · simp [ancestryInDeg, endpointId]

theorem storeInvariant_runTicks :
    ∀ (cs : List TickChoice) (st : SimSt), storeInvariant st = true →
      freshRun st cs = true → storeInvariant (runTicks st cs) = true := by
  intro cs
  induction cs with
  | nil =>
    intro st h _
    simpa [runTicks] using h
  | cons c cs ih =>
    intro st h1 h2
    rw [freshRun, Bool.and_eq_true] at h2
    have hstep := storeInvariant_tick st c h1 h2.1
    simpa [runTicks] using ih (tick st c) hstep h2.2

/-- C3, amended.  Along every run whose oracle data satisfies the real-world
side conditions (in-range random indices, fresh child identifiers, and the
`parents` field `evolveThinkers` actually writes), every reachable store
state satisfies the weakened invariant: every entity has **at most** two
ancestry edges pointing to it, each of those edges comes from one of its
recorded parents, and every edge endpoint names an entity present in the
Store.  "Exactly two" is weakened to "at most two" because capacity eviction
of a parent deletes that parent's ancestry edge while the child remains (see
the counterexample). -/
theorem ancestry_invariant_weak (cs : List TickChoice)
    (h : freshRun initialSimSt cs = true) :
    storeInvariant (runTicks initialSimSt cs) = true :=
  storeInvariant_runTicks cs initialSimSt (by decide) h

/-- The generated child committed at tick `k` of the counterexample run: bred
from the two first seeds, carrying fresh identifier `c<k>`. -/
def traceChild (k : Nat) : ThinkerNode :=
  { id := "c" ++ toString k, name := "Child " ++ toString k, archetype := .MYSTIC
  , stats := { logic := 0, creativity := 0, empathy := 0, complexity := 0 }
  , generation := 1, parents := ["seed-source", "seed-harmonic"]
  , description := "child", instrument := "Bell", avatarSeed := 0 }

/-- The 41 synthesis choices that fill the store from 4 to 45 entities. -/
def c3TraceA : List TickChoice :=
  (List.range 41).map (fun k => { pA := 0, pB := 1, res := .ok (traceChild (k + 1)) "r" })

def c3ThrowChoice : TickChoice := { pA := 0, pB := 1, res := .throwErr }

/-- The counterexample run: 41 successful births from the first two seeds
(filling the store from 4 to 45 entities), then one tick at capacity whose
synthesis throws.  That last tick evicts `seed-source` (generation 0, lowest
complexity, first in store order) together with all 41 ancestry edges it is
the source of — orphaning one ancestry edge of every child. -/
def c3Trace : List TickChoice := c3TraceA ++ [c3ThrowChoice]

/-- The store after the 41 births: exactly at capacity. -/
def state41 : SimSt := runTicks initialSimSt c3TraceA

theorem runTicks_append (cs ds : List TickChoice) (st : SimSt) :
    runTicks st (cs ++ ds) = runTicks (runTicks st cs) ds := by
  simp [runTicks, List.foldl_append]

theorem freshRun_append (cs ds : List TickChoice) :
    ∀ st, freshRun st (cs ++ ds) = (freshRun st cs && freshRun (runTicks st cs) ds) := by
  induction cs with
  | nil =>
    intro st
    simp [freshRun, runTicks]
  | cons c cs ih =>
    intro st
    simp [freshRun, runTicks, ih, Bool.and_assoc]

theorem specAncestryInvariant_eq_of_core (st' st : SimSt)
    (hn : st'.nodes = st.nodes) (hl : st'.links = st.links) :
    specAncestryInvariant st' = specAncestryInvariant st := by
  unfold specAncestryInvariant
  rw [hn, hl]

theorem state41_len : state41.nodes.length = 45 := by decide

theorem state41_find :
    (state41.nodes.find? (fun n => state41.nodes.all (nodeLe n))).map ThinkerNode.id
      = some "seed-source" := by decide

/-- C3, counterexample.  The claim's invariant — every non-seed entity has
exactly two ancestry edges pointing to it from its two parents — fails on a
reachable store state: after the capacity eviction of `seed-source`, child
`c1` (a non-seed entity, its recorded parents nonempty) has exactly one
ancestry edge left. -/
theorem ancestry_invariant_fails_after_parent_eviction :
    freshRun initialSimSt c3Trace = true ∧
    specAncestryInvariant (runTicks initialSimSt c3Trace) = false ∧
    ancestryInDeg (runTicks initialSimSt c3Trace).links "c1" = 1 ∧
    (runTicks initialSimSt c3Trace).nodes.any
      (fun n => n.id == "c1" && !n.parents.isEmpty) = true := by
  obtain ⟨t, hfind, hn, hl, _, _, hlen⟩ :=
    evictionPhase_at_capacity state41 (by rw [state41_len]; decide) (by decide)
  have htid : t.id = "seed-source" := by
    have h := state41_find
    rw [hfind] at h
    simpa using h
  simp only [htid] at hn hl
  have hlen44 : (evictionPhase state41).nodes.length = 44 := by
    have h45 := state41_len
    omega
  have hnl : ¬ (evictionPhase state41).nodes.length < 2 := by omega
  have hrun : runTicks initialSimSt c3Trace = tick state41 c3ThrowChoice := by
    rw [show c3Trace = c3TraceA ++ [c3ThrowChoice] from rfl, runTicks_append]
    rfl
  obtain ⟨hfn, hfl, _, _⟩ := performStep_throw state41 0 1 hnl
  have hnodes : (runTicks initialSimSt c3Trace).nodes
      = state41.nodes.filter (fun n => n.id != "seed-source") := by
    rw [hrun]
    exact hfn.trans hn
  have hlinks : (runTicks initialSimSt c3Trace).links
      = state41.links.filter (fun l =>
          endpointId l.source != "seed-source" && endpointId l.target != "seed-source") := by
    rw [hrun]
    exact hfl.trans hl
  refine ⟨?_, ?_, ?_, ?_⟩
  · rw [show c3Trace = c3TraceA ++ [c3ThrowChoice] from rfl, freshRun_append,
      Bool.and_eq_true]
    refine ⟨by decide, ?_⟩
    rw [show runTicks initialSimSt c3TraceA = state41 from rfl]
    simp only [freshRun, Bool.and_eq_true]
    refine ⟨?_, trivial⟩
    simp only [freshChoice]
    rw [if_neg hnl]
    simp [hlen44, c3ThrowChoice]
  · rw [specAncestryInvariant_eq_of_core (runTicks initialSimSt c3Trace)
      { nodes := state41.nodes.filter (fun n => n.id != "seed-source")
      , links := state41.links.filter (fun l =>
          endpointId l.source != "seed-source" && endpointId l.target != "seed-source")
      , logs := [], cooldown := false } hnodes hlinks]
    decide
  · rw [hlinks]
    decide
  · rw [hnodes]
    decide

/-- Witness for the amended C3 on a one-tick run. -/
theorem ancestry_invariant_weak_witness :
    freshRun initialSimSt [{ pA := 0, pB := 1, res := .ok (traceChild 1) "r" }] = true ∧
    storeInvariant (runTicks initialSimSt
      [{ pA := 0, pB := 1, res := .ok (traceChild 1) "r" }]) = true :=
  ⟨by decide, ancestry_invariant_weak _ (by decide)⟩
